import Mathlib

/-!
Verification development for the pdf-editor plugin
(`.claude-plugin/skills/pdf-editor/scripts/pdf_editor.py`).

The script is embedded shallowly:

* a PDF document is a list of pages; a page carries its mediabox width and
  height (points, modelled as exact rationals), its stored rotation (degrees,
  an integer), its optional raw content stream (a byte list, `none` when the
  page dictionary has no /Contents key), and the list of overlays that have
  been merged onto it;
* the PyPDF2 / reportlab library calls at the edge of the script are black
  boxes for the spec; they are modelled by their documented behaviour:
  `Page.rotate` adds to the stored rotation modulo 360, dictionary subscript
  `page[key]` fails (Python `KeyError`) when the key is absent and never
  yields Python `None` for a present key, a reportlab canvas is a fresh
  one-page overlay that records the images drawn into it, and `merge_page`
  appends the overlay on top of the page;
* Python runtime primitives used by the script (`str.split`, `int(...)`,
  `bytes.replace`, `str.encode`, `str.lower`/`endswith`) are reimplemented
  below on character and byte lists;
* the filesystem is abstracted to what `main` observes: whether the input
  exists, the document parsed from it, whether the footer image file exists,
  and whether drawing the footer image succeeds on each page;
* failure is explicit: a `RunOutcome.err` is a run that printed the recorded
  message and terminated with exit code 1; its boolean records whether the
  output file had already been created (Python's `open(output, "wb")`
  creates the file before `writer.write` is attempted).
-/

/-- One image drawn on a reportlab canvas: source path, lower-left corner
x/y, drawn width and height, all in points. -/
structure DrawnImage where
  path : String
  x : ℚ
  y : ℚ
  w : ℚ
  h : ℚ
deriving DecidableEq

/-- A one-page overlay produced by reportlab (`canvas.Canvas` + `save`):
its page size and the images drawn into it. -/
structure Overlay where
  width : ℚ
  height : ℚ
  images : List DrawnImage
deriving DecidableEq

/-- A PDF page: mediabox width/height (points), stored /Rotate value
(degrees), optional /Contents stream (raw bytes; `none` when the page
dictionary has no /Contents key), and the overlays merged onto it. -/
structure Page where
  width : ℚ
  height : ℚ
  rotation : ℤ
  contents : Option (List Nat)
  overlays : List Overlay
deriving DecidableEq

/-- The world `main` observes: whether the `--input` path names an existing
file, the document parsed from it, whether the `--footer-image` path names
an existing file, and whether reportlab `drawImage` succeeds while the page
of a given index is processed (false = it raises, e.g. malformed raster). -/
structure Env where
  inputExists : Bool
  inputDoc : List Page
  footerExists : Bool
  drawOk : Nat → Bool

/-- Parsed command line. argparse stores `none` for an absent optional flag
and the given string otherwise; `--replace-url` takes two values. -/
structure Args where
  input : String
  output : String
  rotate : Option String
  replace_url : Option (String × String)
  footer_image : Option String
deriving DecidableEq

/-- The `writer` variable of `main`: it initially holds the bare
`PdfReader` object (which has no `write` method) and is replaced by a
`PdfWriter` holding pages whenever a transform runs. -/
inductive WriterState where
  | reader : WriterState
  | pages : List Page → WriterState
deriving DecidableEq

/-- How the `try` block of `main` aborts: `exc` is a Python exception that
reaches the generic `except Exception` handler, `exit` is a `sys.exit(1)`
after printing the recorded message (`SystemExit` is not caught by
`except Exception`). -/
inductive PyAbort where
  | exc : String → PyAbort
  | exit : String → PyAbort
deriving DecidableEq

/-- Observable result of one invocation: `ok pages` is exit code 0 with the
pages written to the output path; `err msg created` is exit code 1 with
`msg` printed, `created` recording whether the output file had been
created (empty) before the failure. -/
inductive RunOutcome where
  | ok : List Page → RunOutcome
  | err : String → Bool → RunOutcome
deriving DecidableEq

/-- Decidable equality of `Except` values, for evaluating the model on
concrete inputs. -/
instance decEqExcept {ε α : Type} [DecidableEq ε] [DecidableEq α] :
    DecidableEq (Except ε α) := fun a b =>
  match a, b with
  | Except.ok x, Except.ok y =>
    if h : x = y then isTrue (congrArg Except.ok h)
    else isFalse (fun he => h (Except.ok.inj he))
  | Except.error x, Except.error y =>
    if h : x = y then isTrue (congrArg Except.error h)
    else isFalse (fun he => h (Except.error.inj he))
  | Except.ok _, Except.error _ => isFalse (fun he => Except.noConfusion he)
  | Except.error _, Except.ok _ => isFalse (fun he => Except.noConfusion he)

/-- UTF-8 bytes of one character (model of Python `str.encode("utf-8")`,
per code point). -/
def utf8Bytes (c : Char) : List Nat :=
  let n := c.toNat
  if n < 128 then [n]
  else if n < 2048 then [192 + n / 64, 128 + n % 64]
  else if n < 65536 then [224 + n / 4096, 128 + (n / 64) % 64, 128 + n % 64]
  else [240 + n / 262144, 128 + (n / 4096) % 64, 128 + (n / 64) % 64, 128 + n % 64]

/-- Model of Python `str.encode("utf-8")` as a byte list. -/
def encodeUtf8 (s : String) : List Nat :=
  (s.toList.map utf8Bytes).flatten

/-- Model of Python `str.split(sep)` for a one-character separator:
`"".split(sep) == [""]`, empty fields are kept. -/
def splitOnChar (sep : Char) : List Char → List (List Char)
  | [] => [[]]
  | c :: rest =>
    let r := splitOnChar sep rest
    if c == sep then [] :: r
    else
      match r with
      | [] => [[c]]
      | h :: t => (c :: h) :: t

/-- ASCII whitespace stripped by Python `int(str)`. -/
def isPyWs (c : Char) : Bool :=
  c == ' ' || c == '\t' || c == '\n' || c == '\r' || c == '\x0b' || c == '\x0c'

/-- Numeric value of an ASCII digit. -/
def digitVal (c : Char) : Nat := c.toNat - 48

/-- Digit run of a Python integer literal after its first digit: single
underscores are permitted between digits, nothing else. -/
def digitsCore : List Char → Nat → Option Nat
  | [], acc => some acc
  | '_' :: c :: rest, acc =>
    if c.isDigit then digitsCore rest (acc * 10 + digitVal c) else none
  | c :: rest, acc =>
    if c.isDigit then digitsCore rest (acc * 10 + digitVal c) else none

/-- Nonempty digit run (with optional inner underscores) of a Python
integer literal; `none` when the characters are not such a run. -/
def pyIntDigits (cs : List Char) : Option Nat :=
  match cs with
  | [] => none
  | c :: rest => if c.isDigit then digitsCore rest (digitVal c) else none

/-- Model of Python `int(str)` on ASCII input: optional surrounding ASCII
whitespace, optional single sign, then a nonempty digit run with optional
single underscores between digits; anything else raises `ValueError`. -/
def pyInt (cs : List Char) : Except String Int :=
  let a := cs.dropWhile isPyWs
  let b := (a.reverse.dropWhile isPyWs).reverse
  match b with
  | '+' :: rest =>
    match pyIntDigits rest with
    | some n => Except.ok (Int.ofNat n)
    | none => Except.error ("ValueError: invalid literal for int with base 10: " ++ String.mk cs)
  | '-' :: rest =>
    match pyIntDigits rest with
    | some n => Except.ok (-(Int.ofNat n))
    | none => Except.error ("ValueError: invalid literal for int with base 10: " ++ String.mk cs)
  | rest =>
    match pyIntDigits rest with
    | some n => Except.ok (Int.ofNat n)
    | none => Except.error ("ValueError: invalid literal for int with base 10: " ++ String.mk cs)

/-- Model of `image_path.lower().endswith(".svg")` for ASCII paths. -/
def isSvg (path : String) : Bool :=
  (".svg").toList.isSuffixOf (path.toList.map Char.toLower)

/-- Python truthiness of an optional string flag: `None` and the empty
string are falsy. -/
def truthy : Option String → Bool
  | none => false
  | some s => !(s == "")

/-- One `page, angle = rotation.split(":")` + `int` step of the rotate-spec
parse in `main`: the token must split on a colon into exactly two parts and
both must be accepted by Python `int`. -/
def parseRotTok (tok : List Char) : Except String (Int × Int) :=
  match splitOnChar ':' tok with
  | [p, a] =>
    match pyInt p with
    | Except.error e => Except.error e
    | Except.ok pv =>
      match pyInt a with
      | Except.error e => Except.error e
      | Except.ok av => Except.ok (pv, av)
  | _ => Except.error ("ValueError: not enough values to unpack, expected 2")

/-- The building of the `rotations` dict in `main`, token by token; the
first failing token aborts the whole parse (unhandled exception). -/
def parseRotToks : List (List Char) → Except String (List (Int × Int))
  | [] => Except.ok []
  | tok :: rest =>
    match parseRotTok tok with
    | Except.error e => Except.error e
    | Except.ok pa =>
      match parseRotToks rest with
      | Except.error e => Except.error e
      | Except.ok l => Except.ok (pa :: l)

/-- The rotate-spec parse of `main`: split `args.rotate` on commas, then
each token on a colon with both parts fed to `int`. The resulting
association list (in insertion order) models the built dict. -/
def parseRotations (s : String) : Except String (List (Int × Int)) :=
  parseRotToks (splitOnChar ',' s.toList)

/-- Lookup in the `rotations` dict: the last assignment for a key wins. -/
def rotLookup (rots : List (Int × Int)) (k : Int) : Option Int :=
  match rots with
  | [] => none
  | kv :: rest =>
    match rotLookup rest k with
    | some r => some r
    | none => if kv.1 == k then some kv.2 else none

/-- Modelled from the spec: PyPDF2 `PageObject.rotate` (external library, a
black box for the spec) increments the stored rotation by the given angle,
relative to the stored orientation, modulo 360. -/
def pageRotate (p : Page) (angle : Int) : Page :=
  { p with rotation := (p.rotation + angle) % 360 }

/-- `rotate_pages` of the script: iterate over the document's own page
indices (0-indexed); a page whose 1-indexed number is a key of `rotations`
is rotated by the mapped angle, every other page is added unchanged. -/
def rotate_pages (doc : List Page) (rotations : List (Int × Int)) : List Page :=
  doc.enum.map fun ip =>
    match rotLookup rotations (Int.ofNat ip.1 + 1) with
    | some angle => pageRotate ip.2 angle
    | none => ip.2

/-- Model of Python `bytes.replace` with explicit fuel (the fuel is the
length of the scanned list, which bounds the number of steps): scan left to
right; at a position where `old` matches, emit `new` and continue after the
match, otherwise keep the byte. -/
def replaceBytesF : Nat → List Nat → List Nat → List Nat → List Nat
  | 0, _, _, s => s
  | _ + 1, _, _, [] => []
  | fuel + 1, old, new, b :: rest =>
    if old ≠ [] ∧ old.isPrefixOf (b :: rest) then
      new ++ replaceBytesF fuel old new ((b :: rest).drop old.length)
    else
      b :: replaceBytesF fuel old new rest

/-- Model of Python `bytes.replace` for a nonempty pattern. -/
def replaceBytes (old new s : List Nat) : List Nat :=
  replaceBytesF s.length old new s

/-- Model of Python `bytes.replace` including the empty-pattern case
(`old = b""` inserts `new` between all bytes and at both ends). -/
def pyReplace (old new s : List Nat) : List Nat :=
  if old = [] then new ++ s.foldr (fun b acc => b :: (new ++ acc)) []
  else replaceBytes old new s

/-- One loop iteration of `replace_text_in_pdf`: `page["/Contents"]` raises
`KeyError` when the page dictionary has no /Contents key (dict subscript);
for a present key the resolved object is never Python `None`, so the
`is not None` branch is always taken and the stream data is replaced. -/
def replacePage (old new : List Nat) (p : Page) : Except String Page :=
  match p.contents with
  | none => Except.error ("KeyError: /Contents")
  | some content =>
    Except.ok { p with contents := some (pyReplace old new content) }

/-- The page loop of `replace_text_in_pdf`: pages are processed in order
and the first raising page aborts the transform. -/
def replacePages (old new : List Nat) : List Page → Except String (List Page)
  | [] => Except.ok []
  | p :: ps =>
    match replacePage old new p with
    | Except.error e => Except.error e
    | Except.ok q =>
      match replacePages old new ps with
      | Except.error e => Except.error e
      | Except.ok qs => Except.ok (q :: qs)

/-- `replace_text_in_pdf` of the script: byte-level replacement of the
UTF-8 encoding of `old_text` by that of `new_text` in every page's content
stream. -/
def replace_text_in_pdf (doc : List Page) (old_text new_text : String) :
    Except String (List Page) :=
  replacePages (encodeUtf8 old_text) (encodeUtf8 new_text) doc

/-- `add_footer_image` of the script: for each page, synthesize a fresh
one-page overlay at the page's mediabox size, draw the image 30x30 points
at `(page_width - 50) - 30` from the left and 30 points from the bottom —
unless the path ends in `.svg` (that branch is `pass`) or `drawImage`
raises (caught, warning printed) — then merge the overlay onto the page. -/
def add_footer_image (env : Env) (doc : List Page) (image_path : String) :
    List Page :=
  doc.enum.map fun ip =>
    let page_width_pts : ℚ := ip.2.width
    let page_height_pts : ℚ := ip.2.height
    let footer_x : ℚ := page_width_pts - 50
    let footer_y : ℚ := 30
    let image_size : ℚ := 30
    let drawn : List DrawnImage :=
      if isSvg image_path then []
      else if env.drawOk ip.1 then
        [{ path := image_path, x := footer_x - image_size, y := footer_y,
           w := image_size, h := image_size }]
      else []
    { ip.2 with overlays := ip.2.overlays ++
        [{ width := page_width_pts, height := page_height_pts, images := drawn }] }

/-- The rotate step of `main`: when `args.rotate` is truthy, parse the spec
and replace the working object by `rotate_pages` recomputed from the input
document; otherwise keep the working object (initially the bare reader). -/
def step1 (env : Env) (args : Args) : Except PyAbort WriterState :=
  if truthy args.rotate then
    match parseRotations (args.rotate.getD ("")) with
    | Except.ok rots => Except.ok (WriterState.pages (rotate_pages env.inputDoc rots))
    | Except.error e => Except.error (PyAbort.exc e)
  else Except.ok WriterState.reader

/-- The replace step of `main`: when `--replace-url` was given (a two-value
flag, always truthy), replace the working object by `replace_text_in_pdf`
recomputed from the input document. -/
def step2 (env : Env) (args : Args) : Except PyAbort WriterState :=
  match step1 env args with
  | Except.error e => Except.error e
  | Except.ok w =>
    match args.replace_url with
    | some pair =>
      match replace_text_in_pdf env.inputDoc pair.1 pair.2 with
      | Except.ok pages => Except.ok (WriterState.pages pages)
      | Except.error e => Except.error (PyAbort.exc e)
    | none => Except.ok w

/-- The footer step of `main`: when `args.footer_image` is truthy, a
missing footer file prints an error and exits with code 1 (before any
output is opened); otherwise the working object is replaced by
`add_footer_image` recomputed from the input document. -/
def step3 (env : Env) (args : Args) : Except PyAbort WriterState :=
  match step2 env args with
  | Except.error e => Except.error e
  | Except.ok w =>
    if truthy args.footer_image then
      if env.footerExists then
        Except.ok (WriterState.pages (add_footer_image env env.inputDoc (args.footer_image.getD (""))))
      else
        Except.error (PyAbort.exit ("Error: Footer image not found: " ++ args.footer_image.getD ("")))
    else Except.ok w

/-- `main` of the script: validate that the input exists (before the `try`
block, so exit 1 with no output file), run the three conditional steps,
then open the output (creating the file) and call `writer.write`; if the
working object is still the bare `PdfReader`, that call raises
`AttributeError`, caught by the generic handler (exit 1, output created
empty). Any exception in the steps aborts before the output is opened. -/
def mainRun (env : Env) (args : Args) : RunOutcome :=
  if env.inputExists = false then
    RunOutcome.err ("Error: Input file not found: " ++ args.input) false
  else
    match step3 env args with
    | Except.error (PyAbort.exc e) =>
      RunOutcome.err ("Error processing PDF: " ++ e) false
    | Except.error (PyAbort.exit m) => RunOutcome.err m false
    | Except.ok WriterState.reader =>
      RunOutcome.err ("Error processing PDF: PdfReader object has no attribute write") true
    | Except.ok (WriterState.pages pages) => RunOutcome.ok pages

/-- Modelled from the spec: the document produced by applying only the
last-applied transform (fixed order rotate, then replace, then footer,
skipping flags that are absent or empty) to the document read from the
input path. Used to state that earlier requested transforms leave no trace
in the output. -/
def lastTransformOnly (env : Env) (args : Args) : Except String (List Page) :=
  if truthy args.footer_image then
    Except.ok (add_footer_image env env.inputDoc (args.footer_image.getD ("")))
  else
    match args.replace_url with
    | some pair => replace_text_in_pdf env.inputDoc pair.1 pair.2
    | none =>
      if truthy args.rotate then
        match parseRotations (args.rotate.getD ("")) with
        | Except.ok rots => Except.ok (rotate_pages env.inputDoc rots)
        | Except.error e => Except.error e
      else Except.ok env.inputDoc

/-- Number of the three transform flags supplied on the command line. -/
def flagCount (args : Args) : Nat :=
  (if args.rotate.isSome then 1 else 0) +
    (if args.replace_url.isSome then 1 else 0) +
    (if args.footer_image.isSome then 1 else 0)

/-- Modelled from the spec: a nonempty all-digit token, optionally signed —
a base-10 integer of the documented grammar. -/
def specIntToken (cs : List Char) : Bool :=
  match cs with
  | '-' :: rest => !rest.isEmpty && rest.all Char.isDigit
  | _ => !cs.isEmpty && cs.all Char.isDigit

/-- Modelled from the spec: the literal rotate-spec grammar
`page:angle[,page:angle...]` with page and angle base-10 integers. -/
def specRotateGrammar (s : String) : Bool :=
  (splitOnChar ',' s.toList).all fun tok =>
    match splitOnChar ':' tok with
    | [p, a] => specIntToken p && specIntToken a
    | _ => false

/-- Number of (possibly overlapping) occurrences of `pat` in `s`: the
number of positions of `s` at which `pat` is a prefix of the rest. -/
def countOcc (pat : List Nat) : List Nat → Nat
  | [] => 0
  | b :: rest => (if pat.isPrefixOf (b :: rest) then 1 else 0) + countOcc pat rest

/-- Occurrences of `pat` starting inside the `a` part of `a ++ t`. -/
def countOccAux (pat : List Nat) : List Nat → List Nat → Nat
  | [], _ => 0
  | b :: a, t => (if pat.isPrefixOf (b :: (a ++ t)) then 1 else 0) + countOccAux pat a t

/-- UTF-8 bytes of the old wiki host `team-wiki.local`. -/
def oldBytes : List Nat := [116, 101, 97, 109, 45, 119, 105, 107, 105, 46, 108, 111, 99, 97, 108]

/-- `oldBytes` without its first byte. -/
def oldTail : List Nat := [101, 97, 109, 45, 119, 105, 107, 105, 46, 108, 111, 99, 97, 108]

/-- UTF-8 bytes of the new wiki host `team-wiki.etc.com`. -/
def newBytes : List Nat := [116, 101, 97, 109, 45, 119, 105, 107, 105, 46, 101, 116, 99, 46, 99, 111, 109]

/-- `newBytes` without its first byte. -/
def newTail : List Nat := [101, 97, 109, 45, 119, 105, 107, 105, 46, 101, 116, 99, 46, 99, 111, 109]

/-- Two-page fixture document used by the concrete witnesses. -/
def pageA : Page :=
  { width := 612, height := 792, rotation := 0, contents := some [97, 98, 97], overlays := [] }

/-- Second fixture page, with a nonzero stored rotation. -/
def pageB : Page :=
  { width := 595, height := 842, rotation := 270, contents := some [99], overlays := [] }

/-- Fixture page whose dictionary has no /Contents key. -/
def pageN : Page :=
  { width := 612, height := 792, rotation := 0, contents := none, overlays := [] }

/-- Fixture environment: two-page input document, footer file present,
drawing succeeds on every page. -/
def envA : Env :=
  { inputExists := true, inputDoc := [pageA, pageB], footerExists := true,
    drawOk := fun _ => true }

/-- Fixture environment where drawing the footer image fails on page
index 0 and succeeds elsewhere. -/
def envB : Env :=
  { inputExists := true, inputDoc := [pageA, pageB], footerExists := true,
    drawOk := fun i => !(i == 0) }

/-- Fixture environment whose single page has no /Contents key. -/
def envN : Env :=
  { inputExists := true, inputDoc := [pageN], footerExists := true,
    drawOk := fun _ => true }

/-- Fixture arguments with no transform flag. -/
def argsPlain : Args :=
  { input := "in.pdf", output := "out.pdf", rotate := none,
    replace_url := none, footer_image := none }

/-- Fixture arguments: rotate and replace both supplied. -/
def argsC1 : Args :=
  { argsPlain with rotate := some ("1:90"), replace_url := some ("a", "b") }

/-- Expected output for `argsC1` on `envA`: only the replace transform
applied (every `a` byte becomes `b`), no page rotated. -/
def docC1 : List Page := [{ pageA with contents := some [98, 98, 98] }, pageB]

/-- Fixture arguments with an SVG footer request. -/
def argsSvg : Args := { argsPlain with footer_image := some ("logo.svg") }

/-- Fixture arguments with a PNG footer request. -/
def argsPng : Args := { argsPlain with footer_image := some ("logo.png") }

/-- Fixture arguments whose rotate spec has a leading space: outside the
documented grammar, but accepted by Python `int`. -/
def argsRotSpace : Args := { argsPlain with rotate := some (" 1:90") }

/-- Fixture arguments whose rotate spec has a non-integer angle. -/
def argsRotBad : Args := { argsPlain with rotate := some ("1:x") }

/-- Fixture arguments for the wiki-host replacement. -/
def argsReplaceWiki : Args :=
  { argsPlain with replace_url := some ("team-wiki.local", "team-wiki.etc.com") }

/-- Fixture content stream containing the old host once and the new host
once, separated by a space. -/
def contentCX : List Nat := oldBytes ++ [32] ++ newBytes

/-- Fixture page holding `contentCX`. -/
def pageCX : Page := { pageA with contents := some contentCX }

/-- `pageCX` after the wiki-host replacement. -/
def pageCXout : Page := { pageCX with contents := some (newBytes ++ [32] ++ newBytes) }

/-- Fixture rotation mapping: page 1 by 90 degrees, plus an out-of-range
key 7. -/
def rotsW : List (Int × Int) := [(1, 90), (7, 45)]

/-- Boolean prefix test through an append: `pat` starts `a ++ t` iff it
starts `a`, or `a` starts `pat` and the remainder of `pat` starts `t`. -/
theorem isPrefixOf_append_eq (pat a t : List Nat) :
    pat.isPrefixOf (a ++ t) =
      (pat.isPrefixOf a || (a.isPrefixOf pat && (pat.drop a.length).isPrefixOf t)) := by
  induction a generalizing pat with
  | nil =>
    cases pat with
    | nil => simp [List.isPrefixOf]
    | cons p ps => simp [List.isPrefixOf]
  | cons x a ih =>
    cases pat with
    | nil => simp [List.isPrefixOf]
    | cons p ps =>
      simp only [List.cons_append, List.isPrefixOf, List.length_cons,
        List.drop_succ_cons, List.append_eq]
      by_cases hpx : p = x
      · subst hpx
        simp only [beq_self_eq_true, Bool.true_and, ih]
      · have h1 : (p == x) = false := by simp [hpx]
        have h2 : (x == p) = false := by simp [Ne.symm hpx]
        simp [h1, h2]

/-- `pat` cannot start `a ++ t` when `pat` does not start `a` and `a` does
not start `pat`. -/
theorem noPfx_append (pat a t : List Nat)
    (h1 : pat.isPrefixOf a = false) (h2 : a.isPrefixOf pat = false) :
    pat.isPrefixOf (a ++ t) = false := by
  rw [isPrefixOf_append_eq, h1, h2]
  rfl

/-- A list starts any extension of itself. -/
theorem isPrefixOf_self_append (a t : List Nat) : a.isPrefixOf (a ++ t) = true := by
  induction a with
  | nil => simp [List.isPrefixOf]
  | cons b a ih => simp [List.isPrefixOf, ih]

/-- Occurrence count through an append, split at the boundary. -/
theorem countOcc_append (pat a t : List Nat) :
    countOcc pat (a ++ t) = countOccAux pat a t + countOcc pat t := by
  induction a with
  | nil => simp [countOccAux]
  | cons b a ih =>
    simp only [List.cons_append, countOcc, countOccAux, List.append_eq, ih]
    omega

/-- The fuel of `replaceBytesF` is irrelevant as soon as it bounds the
length of the scanned list. -/
theorem replaceBytesF_fuel (old new : List Nat) :
    ∀ f1 f2 s, s.length ≤ f1 → s.length ≤ f2 →
      replaceBytesF f1 old new s = replaceBytesF f2 old new s := by
  intro f1
  induction f1 with
  | zero =>
    intro f2 s hs1 hs2
    have hs : s = [] := List.length_eq_zero.mp (Nat.le_zero.mp hs1)
    subst hs
    cases f2 <;> rfl
  | succ f1 ih =>
    intro f2 s hs1 hs2
    cases s with
    | nil => cases f2 <;> rfl
    | cons b rest =>
      cases f2 with
      | zero => simp at hs2
      | succ f2 =>
        simp only [replaceBytesF]
        by_cases h : old ≠ [] ∧ old.isPrefixOf (b :: rest) = true
        · rw [if_pos h, if_pos h]
          have hlen : 0 < old.length := List.length_pos.mpr h.1
          have hd1 : ((b :: rest).drop old.length).length ≤ f1 := by
            simp only [List.length_drop, List.length_cons]
            simp only [List.length_cons] at hs1
            omega
          have hd2 : ((b :: rest).drop old.length).length ≤ f2 := by
            simp only [List.length_drop, List.length_cons]
            simp only [List.length_cons] at hs2
            omega
          rw [ih f2 _ hd1 hd2]
        · rw [if_neg h, if_neg h]
          have hr1 : rest.length ≤ f1 := by
            simp only [List.length_cons] at hs1; omega
          have hr2 : rest.length ≤ f2 := by
            simp only [List.length_cons] at hs2; omega
          rw [ih f2 rest hr1 hr2]

/-- `replaceBytes` at a matching position: emit `new`, continue after the
match. -/
theorem replaceBytes_cons_pos (old new : List Nat) (b : Nat) (rest : List Nat)
    (h : old ≠ [] ∧ old.isPrefixOf (b :: rest) = true) :
    replaceBytes old new (b :: rest) =
      new ++ replaceBytes old new ((b :: rest).drop old.length) := by
  show replaceBytesF (b :: rest).length old new (b :: rest) = _
  simp only [List.length_cons, replaceBytesF]
  rw [if_pos h]
  congr 1
  apply replaceBytesF_fuel
  · have hlen : 0 < old.length := List.length_pos.mpr h.1
    simp only [List.length_drop, List.length_cons]
    omega
  · exact Nat.le_refl _

/-- `replaceBytes` at a non-matching position keeps the byte. -/
theorem replaceBytes_cons_neg (old new : List Nat) (b : Nat) (rest : List Nat)
    (h : ¬(old ≠ [] ∧ old.isPrefixOf (b :: rest) = true)) :
    replaceBytes old new (b :: rest) = b :: replaceBytes old new rest := by
  show replaceBytesF (b :: rest).length old new (b :: rest) = _
  simp only [List.length_cons, replaceBytesF]
  rw [if_neg h]
  rfl

/-- `replaceBytes` on a list starting with a nonempty pattern. -/
theorem replaceBytes_eq_pos (old new s : List Nat) (hs : s ≠ [])
    (h1 : old ≠ []) (h2 : old.isPrefixOf s = true) :
    replaceBytes old new s = new ++ replaceBytes old new (s.drop old.length) := by
  cases s with
  | nil => exact absurd rfl hs
  | cons b rest => exact replaceBytes_cons_pos old new b rest ⟨h1, h2⟩

/-- `oldBytes` decomposed for head computations. -/
theorem oldBytes_eq : oldBytes = 116 :: oldTail := rfl

/-- `newBytes` decomposed for head computations. -/
theorem newBytes_eq : newBytes = 116 :: newTail := rfl

/-- Replacing at a position where `oldBytes` matches. -/
theorem replaceBytes_append_old (t : List Nat) :
    replaceBytes oldBytes newBytes (oldBytes ++ t) =
      newBytes ++ replaceBytes oldBytes newBytes t := by
  rw [replaceBytes_eq_pos oldBytes newBytes (oldBytes ++ t) (by simp [oldBytes])
    (by simp [oldBytes]) (isPrefixOf_self_append oldBytes t), List.drop_left]

/-- Replacing at a position where `oldBytes` does not match. -/
theorem replaceBytes_cons_nomatch (b : Nat) (rest : List Nat)
    (h : oldBytes.isPrefixOf (b :: rest) = false) :
    replaceBytes oldBytes newBytes (b :: rest) =
      b :: replaceBytes oldBytes newBytes rest :=
  replaceBytes_cons_neg _ _ _ _ (by simp [h])

/-- No occurrence of `oldBytes` starts inside the `oldBytes` block of
`oldBytes ++ t` except at its head. -/
theorem auxOO (t : List Nat) : countOccAux oldBytes oldBytes t = 1 := by
  simp [countOccAux, oldBytes, List.isPrefixOf]

/-- No occurrence of `newBytes` starts inside the `oldBytes` block of
`oldBytes ++ t`. -/
theorem auxNO (t : List Nat) : countOccAux newBytes oldBytes t = 0 := by
  simp [countOccAux, oldBytes, newBytes, List.isPrefixOf]

/-- No occurrence of `oldBytes` starts inside the `newBytes` block of
`newBytes ++ t`. -/
theorem auxON (t : List Nat) : countOccAux oldBytes newBytes t = 0 := by
  simp [countOccAux, oldBytes, newBytes, List.isPrefixOf]

/-- Exactly one occurrence of `newBytes` starts inside the `newBytes`
block of `newBytes ++ t`: the one at its head. -/
theorem auxNN (t : List Nat) : countOccAux newBytes newBytes t = 1 := by
  simp [countOccAux, newBytes, List.isPrefixOf]

/-- Every suffix of `oldBytes` is prefix-incompatible with `newBytes`
unless empty. -/
theorem tails_old_new : ∀ v ∈ oldBytes.tails, v = [] ∨
    (v.isPrefixOf newBytes = false ∧ newBytes.isPrefixOf v = false) := by decide

/-- Every proper nonempty suffix of `oldBytes` is prefix-incompatible with
`oldBytes`. -/
theorem tails_old_old : ∀ v ∈ oldBytes.tails, v = [] ∨ v = oldBytes ∨
    (v.isPrefixOf oldBytes = false ∧ oldBytes.isPrefixOf v = false) := by decide

/-- Every proper nonempty suffix of `newBytes` is prefix-incompatible with
`newBytes`. -/
theorem tails_new_new : ∀ v ∈ newBytes.tails, v = [] ∨ v = newBytes ∨
    (v.isPrefixOf newBytes = false ∧ newBytes.isPrefixOf v = false) := by decide

/-- Every suffix of `newBytes` is prefix-incompatible with `oldBytes`
unless empty. -/
theorem tails_new_old : ∀ v ∈ newBytes.tails, v = [] ∨
    (v.isPrefixOf oldBytes = false ∧ oldBytes.isPrefixOf v = false) := by decide

/-- A boolean suffix is a member of `tails`. -/
theorem mem_tails_of_isSuffixOf {v w : List Nat} (h : v.isSuffixOf w = true) :
    v ∈ w.tails := by
  rw [List.mem_tails]
  exact List.isSuffixOf_iff_suffix.mp h

/-- The tail of a suffix is a shorter suffix. -/
theorem suffix_tail {c : Nat} {v w : List Nat} (h : (c :: v).isSuffixOf w = true) :
    v.isSuffixOf w = true ∧ v.length + 1 ≤ w.length := by
  have h2 := List.isSuffixOf_iff_suffix.mp h
  refine ⟨List.isSuffixOf_iff_suffix.mpr ((List.suffix_cons c v).trans h2), ?_⟩
  simpa using List.IsSuffix.length_le h2

/-- Main invariant of the byte replacement of `team-wiki.local` by
`team-wiki.etc.com`: the result contains no occurrence of the old bytes,
it contains one occurrence of the new bytes per old or new occurrence of
the input, and every proper suffix of either pattern starts the result
exactly when it starts the input. -/
theorem replaceBytes_occ_invariant :
    ∀ n s, s.length ≤ n →
      (countOcc oldBytes (replaceBytes oldBytes newBytes s) = 0 ∧
        countOcc newBytes (replaceBytes oldBytes newBytes s) =
          countOcc oldBytes s + countOcc newBytes s) ∧
      (∀ v, v.isSuffixOf oldBytes = true → v ≠ oldBytes →
        v.isPrefixOf (replaceBytes oldBytes newBytes s) = v.isPrefixOf s) ∧
      (∀ v, v.isSuffixOf newBytes = true → v ≠ newBytes →
        v.isPrefixOf (replaceBytes oldBytes newBytes s) = v.isPrefixOf s) := by
  intro n
  induction n with
  | zero =>
    intro s hs
    have hs0 : s = [] := List.length_eq_zero.mp (Nat.le_zero.mp hs)
    subst hs0
    exact ⟨⟨rfl, rfl⟩, fun v _ _ => rfl, fun v _ _ => rfl⟩
  | succ n ih =>
    intro s hs
    by_cases hm : oldBytes.isPrefixOf s = true
    · obtain ⟨t, rfl⟩ := List.isPrefixOf_iff_prefix.mp hm
      have ht : t.length ≤ n := by
        simp only [List.length_append] at hs
        have h15 : oldBytes.length = 15 := rfl
        omega
      obtain ⟨⟨ih1, ih2⟩, ih3, ih4⟩ := ih t ht
      rw [replaceBytes_append_old]
      refine ⟨⟨?_, ?_⟩, ?_, ?_⟩
      · rw [countOcc_append, auxON, ih1]
      · rw [countOcc_append, countOcc_append, countOcc_append, auxNN, auxOO, auxNO, ih2]
        omega
      · intro v hv hvne
        by_cases hv0 : v = []
        · subst hv0; simp [List.isPrefixOf]
        · have hmem := mem_tails_of_isSuffixOf hv
          have hon := (tails_old_new v hmem).resolve_left hv0
          have hoo := ((tails_old_old v hmem).resolve_left hv0).resolve_left hvne
          rw [noPfx_append v newBytes _ hon.1 hon.2, noPfx_append v oldBytes t hoo.1 hoo.2]
      · intro v hv hvne
        by_cases hv0 : v = []
        · subst hv0; simp [List.isPrefixOf]
        · have hmem := mem_tails_of_isSuffixOf hv
          have hnn := ((tails_new_new v hmem).resolve_left hv0).resolve_left hvne
          have hno := (tails_new_old v hmem).resolve_left hv0
          rw [noPfx_append v newBytes _ hnn.1 hnn.2, noPfx_append v oldBytes t hno.1 hno.2]
    · cases s with
      | nil => exact ⟨⟨rfl, rfl⟩, fun v _ _ => rfl, fun v _ _ => rfl⟩
      | cons b rest =>
        have hr : rest.length ≤ n := by
          simp only [List.length_cons] at hs; omega
        obtain ⟨⟨ih1, ih2⟩, ih3, ih4⟩ := ih rest hr
        have hmf : oldBytes.isPrefixOf (b :: rest) = false :=
          Bool.eq_false_iff.mpr hm
        rw [replaceBytes_cons_nomatch b rest hmf]
        have eO : ∀ x : List Nat,
            oldBytes.isPrefixOf (b :: x) = ((116 == b) && oldTail.isPrefixOf x) :=
          fun x => rfl
        have eN : ∀ x : List Nat,
            newBytes.isPrefixOf (b :: x) = ((116 == b) && newTail.isPrefixOf x) :=
          fun x => rfl
        have hIndO : oldBytes.isPrefixOf (b :: replaceBytes oldBytes newBytes rest) =
            oldBytes.isPrefixOf (b :: rest) := by
          rw [eO, eO, ih3 oldTail (by decide) (by decide)]
        have hIndN : newBytes.isPrefixOf (b :: replaceBytes oldBytes newBytes rest) =
            newBytes.isPrefixOf (b :: rest) := by
          rw [eN, eN, ih4 newTail (by decide) (by decide)]
        refine ⟨⟨?_, ?_⟩, ?_, ?_⟩
        · simp only [countOcc]
          rw [hIndO, ih1, hmf]
          simp
        · simp only [countOcc]
          rw [hIndN, ih2, hmf]
          simp only [Bool.false_eq_true, if_false]
          omega
        · intro v hv hvne
          cases v with
          | nil => simp [List.isPrefixOf]
          | cons c vt =>
            obtain ⟨hvt, hlen⟩ := suffix_tail hv
            have hvtne : vt ≠ oldBytes := by
              intro hEq
              rw [hEq] at hlen
              omega
            simp only [List.isPrefixOf]
            rw [ih3 vt hvt hvtne]
        · intro v hv hvne
          cases v with
          | nil => simp [List.isPrefixOf]
          | cons c vt =>
            obtain ⟨hvt, hlen⟩ := suffix_tail hv
            have hvtne : vt ≠ newBytes := by
              intro hEq
              rw [hEq] at hlen
              omega
            simp only [List.isPrefixOf]
            rw [ih4 vt hvt hvtne]

/-- The result of the wiki-host replacement has no occurrence of the old
bytes left. -/
theorem replace_no_old (s : List Nat) :
    countOcc oldBytes (replaceBytes oldBytes newBytes s) = 0 :=
  ((replaceBytes_occ_invariant s.length s (Nat.le_refl _)).1).1

/-- The result of the wiki-host replacement has one occurrence of the new
bytes per original old occurrence plus per original new occurrence. -/
theorem replace_count_new (s : List Nat) :
    countOcc newBytes (replaceBytes oldBytes newBytes s) =
      countOcc oldBytes s + countOcc newBytes s :=
  ((replaceBytes_occ_invariant s.length s (Nat.le_refl _)).1).2

/-- Structure of a successful `replacePages` run: same length, and every
page is the input page with its content stream replaced. -/
theorem replacePages_ok (o nn : List Nat) :
    ∀ (doc out : List Page), replacePages o nn doc = Except.ok out →
      out.length = doc.length ∧
      ∀ (i : Nat) (p : Page), doc[i]? = some p → ∃ c, p.contents = some c ∧
        out[i]? = some { p with contents := some (pyReplace o nn c) } := by
  intro doc
  induction doc with
  | nil =>
    intro out h
    simp only [replacePages, Except.ok.injEq] at h
    subst h
    refine ⟨rfl, fun i p hp => ?_⟩
    simp at hp
  | cons q qs ih =>
    intro out h
    cases hc : q.contents with
    | none =>
      have hq : replacePage o nn q = Except.error ("KeyError: /Contents") := by
        rw [replacePage, hc]
      simp only [replacePages, hq] at h
      exact Except.noConfusion h
    | some c =>
      have hq : replacePage o nn q =
          Except.ok { q with contents := some (pyReplace o nn c) } := by
        rw [replacePage, hc]
      cases hrec : replacePages o nn qs with
      | error e =>
        simp only [replacePages, hq, hrec] at h
        exact Except.noConfusion h
      | ok outs =>
        simp only [replacePages, hq, hrec, Except.ok.injEq] at h
        subst h
        obtain ⟨ihl, ihp⟩ := ih outs hrec
        refine ⟨by simp [ihl], fun i p hp => ?_⟩
        cases i with
        | zero =>
          rw [List.getElem?_cons_zero] at hp
          obtain rfl : q = p := Option.some.inj hp
          exact ⟨c, hc, by rw [List.getElem?_cons_zero]⟩
        | succ j =>
          rw [List.getElem?_cons_succ] at hp
          rw [List.getElem?_cons_succ]
          exact ihp j p hp

/-- Filtering the rotation dict by a predicate that holds on every entry
with key `k` does not change the lookup of `k`. -/
theorem rotLookup_filter (rots : List (Int × Int)) (k : Int) (P : Int × Int → Bool)
    (hP : ∀ v : Int, P (k, v) = true) :
    rotLookup (rots.filter P) k = rotLookup rots k := by
  induction rots with
  | nil => rfl
  | cons kv rest ih =>
    rw [List.filter_cons]
    by_cases hkv : P kv = true
    · rw [if_pos hkv]
      simp only [rotLookup, ih]
    · rw [if_neg hkv, ih]
      cases hrl : rotLookup rest k with
      | some r => simp [rotLookup, hrl]
      | none =>
        have hk : (kv.1 == k) = false := by
          by_cases he : kv.1 = k
          · exfalso
            apply hkv
            have hv := hP kv.2
            rw [← he] at hv
            exact hv
          · simp [he]
        simp [rotLookup, hrl, hk]

/-- On an SVG path the footer transform merges an empty overlay onto every
page: the vector-image branch draws nothing. -/
theorem add_footer_svg (env : Env) (doc : List Page) (path : String)
    (h : isSvg path = true) :
    add_footer_image env doc path = doc.map fun p =>
      { p with overlays := p.overlays ++
          [{ width := p.width, height := p.height, images := [] }] } := by
  apply List.ext_getElem?
  intro i
  by_cases hi : i < doc.length
  · have hp : doc[i]? = some doc[i] := List.getElem?_eq_getElem hi
    simp [add_footer_image, List.getElem?_map, List.getElem?_enum, hp, h]
  · have hp : doc[i]? = none := List.getElem?_eq_none (Nat.le_of_not_lt hi)
    simp [add_footer_image, List.getElem?_map, List.getElem?_enum, hp]

/-- Claim C9: when the `--input` path does not name an existing file, the
run prints an error naming the missing path, exits with code 1, and
creates no output file (the check precedes the `try` block, any document
open, and any output handle). -/
theorem claim9_missing_input :
    ∀ (env : Env) (args : Args), env.inputExists = false →
      mainRun env args =
        RunOutcome.err ("Error: Input file not found: " ++ args.input) false := by
  intro env args h
  simp [mainRun, h]

/-- Claim C9 witness at a concrete environment and arguments. -/
theorem claim9_missing_input_witness :
    mainRun { envA with inputExists := false } argsPlain =
      RunOutcome.err ("Error: Input file not found: " ++ ("in.pdf")) false :=
  claim9_missing_input { envA with inputExists := false } argsPlain rfl

/-- Claim C10: when the input exists and none of the three transform flags
is supplied, no copy of the input is written: the working object is still
the bare reader, whose missing `write` attribute raises; the generic
handler prints the error and the process exits with code 1 (the output
file was already created, empty, by `open`). -/
theorem claim10_no_transform_write_fails :
    ∀ (env : Env) (args : Args), env.inputExists = true → args.rotate = none →
      args.replace_url = none → args.footer_image = none →
      mainRun env args =
        RunOutcome.err ("Error processing PDF: PdfReader object has no attribute write")
          true := by
  intro env args h1 h2 h3 h4
  simp [mainRun, step3, step2, step1, truthy, h1, h2, h3, h4]

/-- Claim C10 witness at a concrete environment and arguments. -/
theorem claim10_witness :
    mainRun envA argsPlain =
      RunOutcome.err ("Error processing PDF: PdfReader object has no attribute write")
        true :=
  claim10_no_transform_write_fails envA argsPlain rfl rfl rfl rfl

/-- Claim C2 (code bug): on a document with a page lacking a content
stream, the substitution transform does not pass the page through — the
dict subscript `page["/Contents"]` raises `KeyError` before the
`is not None` guard can fire, so the transform raises and the whole run
aborts with exit code 1. -/
theorem claim2_missing_contents_raises :
    replace_text_in_pdf [pageN] ("team-wiki.local") ("team-wiki.etc.com") =
      Except.error ("KeyError: /Contents") ∧
    mainRun envN argsReplaceWiki =
      RunOutcome.err ("Error processing PDF: KeyError: /Contents") false := by
  constructor
  · decide
  · decide

/-- Claim C6: a footer request whose path ends in `.svg` (case
insensitively) completes with exit code 0, the output has the same page
count as the input, and no image is drawn on any page — each page only
receives an empty overlay. -/
theorem claim6_svg_noop :
    ∀ (env : Env) (args : Args) (path : String), env.inputExists = true →
      args.rotate = none → args.replace_url = none →
      args.footer_image = some path → path ≠ "" → isSvg path = true →
      env.footerExists = true →
      mainRun env args = RunOutcome.ok (env.inputDoc.map fun p =>
        { p with overlays := p.overlays ++
            [{ width := p.width, height := p.height, images := [] }] }) ∧
      (env.inputDoc.map fun p =>
        { p with overlays := p.overlays ++
            [({ width := p.width, height := p.height, images := [] } : Overlay)] }).length =
        env.inputDoc.length := by
  intro env args path h1 h2 h3 h4 h5 h6 h7
  have hb : (path == "") = false := beq_eq_false_iff_ne.mpr h5
  refine ⟨?_, by simp⟩
  simp [mainRun, step3, step2, step1, truthy, h1, h2, h3, h4, hb, h7,
    add_footer_svg env env.inputDoc path h6]

/-- Claim C6 witness: the SVG footer run on the concrete fixtures. -/
theorem claim6_svg_noop_witness :
    mainRun envA argsSvg = RunOutcome.ok
      [{ pageA with overlays := [{ width := 612, height := 792, images := [] }] },
       { pageB with overlays := [{ width := 595, height := 842, images := [] }] }] ∧
    ([{ pageA with overlays := [{ width := 612, height := 792, images := [] }] },
      { pageB with overlays := [{ width := 595, height := 842, images := [] }] }] :
        List Page).length = 2 :=
  claim6_svg_noop envA argsSvg ("logo.svg") rfl rfl rfl rfl (by decide) (by decide) rfl

/-- Claim C7: when drawing the footer image raises on some pages, the
failure is caught per page: the run still exits with code 0, every page is
emitted (page count preserved), and a failing page is merged with the
empty overlay, without a visible footer. -/
theorem claim7_draw_failure_caught :
    ∀ (env : Env) (args : Args) (path : String), env.inputExists = true →
      args.rotate = none → args.replace_url = none →
      args.footer_image = some path → path ≠ "" → isSvg path = false →
      env.footerExists = true →
      mainRun env args = RunOutcome.ok (add_footer_image env env.inputDoc path) ∧
      (add_footer_image env env.inputDoc path).length = env.inputDoc.length ∧
      (∀ (i : Nat) (p : Page), env.drawOk i = false → env.inputDoc[i]? = some p →
        (add_footer_image env env.inputDoc path)[i]? =
          some { p with overlays := p.overlays ++
              [{ width := p.width, height := p.height, images := [] }] }) := by
  intro env args path h1 h2 h3 h4 h5 h6 h7
  have hb : (path == "") = false := beq_eq_false_iff_ne.mpr h5
  refine ⟨?_, by simp [add_footer_image], ?_⟩
  · simp [mainRun, step3, step2, step1, truthy, h1, h2, h3, h4, hb, h7]
  · intro i p hd hp
    simp [add_footer_image, List.getElem?_map, List.getElem?_enum, hp, hd, h6]

/-- Claim C7 witness: drawing fails on page index 0 of the fixture
environment; that page gets the empty overlay and the run still succeeds. -/
theorem claim7_witness :
    mainRun envB argsPng = RunOutcome.ok (add_footer_image envB envB.inputDoc ("logo.png")) ∧
    (add_footer_image envB envB.inputDoc ("logo.png"))[0]? =
      some { pageA with overlays := [{ width := 612, height := 792, images := [] }] } :=
  ⟨(claim7_draw_failure_caught envB argsPng ("logo.png") rfl rfl rfl rfl (by decide)
      (by decide) rfl).1,
   (claim7_draw_failure_caught envB argsPng ("logo.png") rfl rfl rfl rfl (by decide)
      (by decide) rfl).2.2 0 pageA rfl (by decide)⟩

/-- Claim C5: for every page, the footer transform synthesizes a one-page
overlay with exactly that page's mediabox dimensions, draws the raster
image with its lower-left corner at horizontal position page width minus
50 minus 30 points and 30 points from the bottom, at exactly 30 by 30
points, and merges the overlay on top of the page. -/
theorem claim5_footer_geometry :
    ∀ (env : Env) (doc : List Page) (path : String), isSvg path = false →
      (∀ i, env.drawOk i = true) →
      (add_footer_image env doc path).length = doc.length ∧
      ∀ (i : Nat) (p : Page), doc[i]? = some p →
        (add_footer_image env doc path)[i]? =
          some { p with overlays := p.overlays ++
              [{ width := p.width, height := p.height,
                 images := [{ path := path, x := p.width - 50 - 30, y := 30,
                              w := 30, h := 30 }] }] } := by
  intro env doc path h1 h2
  refine ⟨by simp [add_footer_image], ?_⟩
  intro i p hp
  simp [add_footer_image, List.getElem?_map, List.getElem?_enum, hp, h1, h2 i]

/-- Claim C5 witness at the concrete fixtures. -/
theorem claim5_witness :
    (add_footer_image envA [pageA] ("logo.png")).length = 1 ∧
    (add_footer_image envA [pageA] ("logo.png"))[0]? =
      some { pageA with overlays :=
          [{ width := 612, height := 792,
             images := [{ path := "logo.png", x := 612 - 50 - 30, y := 30,
                          w := 30, h := 30 }] }] } :=
  ⟨(claim5_footer_geometry envA [pageA] ("logo.png") (by decide) (fun i => rfl)).1,
   (claim5_footer_geometry envA [pageA] ("logo.png") (by decide) (fun i => rfl)).2
     0 pageA rfl⟩

/-- Claim C3: the rotation transform preserves the page count; a page
whose 1-indexed number is a key of the mapping gets its stored rotation
incremented by the mapped angle modulo 360 and is otherwise unchanged;
pages whose number is not a key are unchanged; keys exceeding the page
count have no effect (filtering them away yields the same result). -/
theorem claim3_rotation :
    ∀ (doc : List Page) (rots : List (Int × Int)),
      (rotate_pages doc rots).length = doc.length ∧
      (∀ (i : Nat) (p : Page), doc[i]? = some p →
        (rotate_pages doc rots)[i]? =
          some (match rotLookup rots (Int.ofNat i + 1) with
            | some a => pageRotate p a
            | none => p)) ∧
      rotate_pages doc rots =
        rotate_pages doc (rots.filter fun kv => decide (kv.1 ≤ Int.ofNat doc.length)) := by
  intro doc rots
  refine ⟨by simp [rotate_pages], ?_, ?_⟩
  · intro i p hp
    simp [rotate_pages, List.getElem?_map, List.getElem?_enum, hp]
  · apply List.ext_getElem?
    intro i
    by_cases hi : i < doc.length
    · have hp : doc[i]? = some doc[i] := List.getElem?_eq_getElem hi
      have hP : ∀ v : Int,
          (fun kv : Int × Int => decide (kv.1 ≤ Int.ofNat doc.length))
            (Int.ofNat i + 1, v) = true := by
        intro v
        show decide (Int.ofNat i + 1 ≤ Int.ofNat doc.length) = true
        rw [decide_eq_true_eq,
          show Int.ofNat i = (i : Int) from rfl,
          show Int.ofNat doc.length = (doc.length : Int) from rfl]
        omega
      have hfe := rotLookup_filter rots (Int.ofNat i + 1)
        (fun kv => decide (kv.1 ≤ Int.ofNat doc.length)) hP
      simp only [Int.ofNat_eq_coe] at hfe
      simp [rotate_pages, List.getElem?_map, List.getElem?_enum, hp, hfe]
    · have hp : doc[i]? = none := List.getElem?_eq_none (Nat.le_of_not_lt hi)
      simp [rotate_pages, List.getElem?_map, List.getElem?_enum, hp]

/-- Claim C3 witness: rotating page 1 of the two-page fixture by 90 with
an out-of-range key 7 in the mapping. -/
theorem claim3_witness :
    (rotate_pages [pageA, pageB] rotsW).length = 2 ∧
    (rotate_pages [pageA, pageB] rotsW)[0]? = some (pageRotate pageA 90) ∧
    (rotate_pages [pageA, pageB] rotsW)[1]? = some pageB ∧
    rotate_pages [pageA, pageB] rotsW =
      rotate_pages [pageA, pageB]
        (rotsW.filter fun kv => decide (kv.1 ≤ Int.ofNat ([pageA, pageB] : List Page).length)) :=
  ⟨(claim3_rotation [pageA, pageB] rotsW).1,
   (claim3_rotation [pageA, pageB] rotsW).2.1 0 pageA rfl,
   (claim3_rotation [pageA, pageB] rotsW).2.1 1 pageB rfl,
   (claim3_rotation [pageA, pageB] rotsW).2.2⟩

/-- Claim C8 counterexample: the rotate argument with a leading space is
outside the documented grammar `page:angle[,page:angle...]` of base-10
integers, yet the run does not raise a parse error — Python `int` strips
the whitespace, the rotation is applied, the run exits with code 0 and an
output file is written. -/
theorem claim8_counterexample :
    specRotateGrammar (" 1:90") = false ∧
    mainRun envA argsRotSpace =
      RunOutcome.ok [{ pageA with rotation := 90 }, pageB] := by
  constructor
  · decide
  · decide

/-- Claim C8 (amended): for every nonempty rotate argument on which the
parse actually fails (some comma-separated token does not split on a colon
into exactly two parts accepted by Python `int`), the unhandled parse
exception aborts the whole run: the generic failure message is printed,
the exit code is 1, and no output file is created. -/
theorem claim8_parse_error_aborts :
    ∀ (env : Env) (args : Args) (s e : String), env.inputExists = true →
      args.rotate = some s → s ≠ "" → parseRotations s = Except.error e →
      mainRun env args = RunOutcome.err ("Error processing PDF: " ++ e) false := by
  intro env args s e h1 h2 h3 h4
  have hb : (s == "") = false := beq_eq_false_iff_ne.mpr h3
  simp [mainRun, step3, step2, step1, truthy, h1, h2, hb, h4]

/-- Claim C8 witness: a rotate spec with a non-integer angle aborts the
concrete run with the generic message and no output file. -/
theorem claim8_witness :
    mainRun envA argsRotBad =
      RunOutcome.err (("Error processing PDF: ") ++
        ("ValueError: invalid literal for int with base 10: x")) false :=
  claim8_parse_error_aborts envA argsRotBad ("1:x")
    ("ValueError: invalid literal for int with base 10: x") rfl rfl (by decide) (by decide)

/-- Claim C4 counterexample: a content stream holding the old host once
and the new host once. After substitution the old host has zero
occurrences, but the new host occurs twice — not once, as the claim
(count of new equals count of old originally present) requires. -/
theorem claim4_counterexample :
    countOcc oldBytes contentCX = 1 ∧
    replace_text_in_pdf [pageCX] ("team-wiki.local") ("team-wiki.etc.com") =
      Except.ok [pageCXout] ∧
    countOcc newBytes (newBytes ++ [32] ++ newBytes) = 2 := by
  refine ⟨by decide, by decide, by decide⟩

/-- Claim C4 (amended): substitution of `team-wiki.local` by
`team-wiki.etc.com` succeeds on documents whose pages all carry a content
stream; every page content stream is rewritten byte for byte, the result
contains zero occurrences of the old byte string, and the number of
occurrences of the new byte string equals the number of old occurrences
plus the number of new occurrences originally present. -/
theorem claim4_substitution_counts :
    ∀ (doc out : List Page),
      replace_text_in_pdf doc ("team-wiki.local") ("team-wiki.etc.com") = Except.ok out →
      out.length = doc.length ∧
      ∀ (i : Nat) (p : Page), doc[i]? = some p → ∃ c,
        p.contents = some c ∧
        out[i]? = some { p with contents := some (replaceBytes oldBytes newBytes c) } ∧
        countOcc oldBytes (replaceBytes oldBytes newBytes c) = 0 ∧
        countOcc newBytes (replaceBytes oldBytes newBytes c) =
          countOcc oldBytes c + countOcc newBytes c := by
  intro doc out h
  have hOld : encodeUtf8 ("team-wiki.local") = oldBytes := by decide
  have hNew : encodeUtf8 ("team-wiki.etc.com") = newBytes := by decide
  have h2 : replacePages oldBytes newBytes doc = Except.ok out := by
    rw [← hOld, ← hNew]
    exact h
  obtain ⟨hl, hp⟩ := replacePages_ok oldBytes newBytes doc out h2
  refine ⟨hl, fun i p hip => ?_⟩
  obtain ⟨c, hc, hout⟩ := hp i p hip
  have hpy : pyReplace oldBytes newBytes c = replaceBytes oldBytes newBytes c := by
    rw [pyReplace, if_neg (by decide : ¬(oldBytes = ([] : List Nat)))]
  refine ⟨c, hc, ?_, replace_no_old c, replace_count_new c⟩
  rw [← hpy]
  exact hout

/-- Claim C4 witness: the amended statement applied to the one-page
counterexample document. -/
theorem claim4_witness :
    ∃ c, pageCX.contents = some c ∧
      ([pageCXout] : List Page)[0]? =
        some { pageCX with contents := some (replaceBytes oldBytes newBytes c) } ∧
      countOcc oldBytes (replaceBytes oldBytes newBytes c) = 0 ∧
      countOcc newBytes (replaceBytes oldBytes newBytes c) =
        countOcc oldBytes c + countOcc newBytes c :=
  (claim4_substitution_counts [pageCX] [pageCXout] (by decide)).2 0 pageCX rfl

/-- Claim C1: whenever more than one of the rotate / replace-url /
footer-image flags is supplied and the run writes an output, the written
document is exactly the result of applying only the last-applied transform
(in the fixed order rotate, replace, footer) to the document read from the
input path — each transform recomputes from the original input, so the
effects of earlier requested transforms are absent. -/
theorem claim1_last_transform_wins :
    ∀ (env : Env) (args : Args) (out : List Page), 2 ≤ flagCount args →
      mainRun env args = RunOutcome.ok out →
      lastTransformOnly env args = Except.ok out := by
  intro env args out _ hrun
  by_cases hin : env.inputExists = false
  · rw [mainRun, if_pos hin] at hrun
    exact RunOutcome.noConfusion hrun
  · rw [mainRun, if_neg hin] at hrun
    cases h3 : step3 env args with
    | error e =>
      rw [h3] at hrun
      cases e with
      | exc m => simp at hrun
      | exit m => simp at hrun
    | ok w =>
      rw [h3] at hrun
      cases w with
      | reader => simp at hrun
      | pages pgs =>
        simp only [RunOutcome.ok.injEq] at hrun
        subst hrun
        rw [step3] at h3
        cases h2s : step2 env args with
        | error e =>
          rw [h2s] at h3
          exact Except.noConfusion h3
        | ok w2 =>
          simp only [h2s] at h3
          by_cases hf : truthy args.footer_image = true
          · rw [if_pos hf] at h3
            by_cases hfe : env.footerExists = true
            · rw [if_pos hfe] at h3
              simp only [Except.ok.injEq, WriterState.pages.injEq] at h3
              rw [lastTransformOnly, if_pos hf, h3]
            · rw [if_neg hfe] at h3
              exact Except.noConfusion h3
          · rw [if_neg hf] at h3
            simp only [Except.ok.injEq] at h3
            subst h3
            rw [step2] at h2s
            cases h1s : step1 env args with
            | error e =>
              rw [h1s] at h2s
              exact Except.noConfusion h2s
            | ok w1 =>
              simp only [h1s] at h2s
              cases hru : args.replace_url with
              | some pair =>
                simp only [hru] at h2s
                cases hrep : replace_text_in_pdf env.inputDoc pair.1 pair.2 with
                | error e =>
                  simp only [hrep] at h2s
                  exact Except.noConfusion h2s
                | ok pgs2 =>
                  simp only [hrep] at h2s
                  simp only [Except.ok.injEq, WriterState.pages.injEq] at h2s
                  rw [lastTransformOnly, if_neg hf]
                  simp only [hru]
                  rw [hrep, h2s]
              | none =>
                simp only [hru] at h2s
                simp only [Except.ok.injEq] at h2s
                subst h2s
                rw [step1] at h1s
                by_cases hr : truthy args.rotate = true
                · rw [if_pos hr] at h1s
                  cases hpar : parseRotations (args.rotate.getD ("")) with
                  | error e =>
                    simp only [hpar] at h1s
                    exact Except.noConfusion h1s
                  | ok rots =>
                    simp only [hpar] at h1s
                    simp only [Except.ok.injEq, WriterState.pages.injEq] at h1s
                    rw [lastTransformOnly, if_neg hf]
                    simp only [hru]
                    rw [if_pos hr]
                    simp only [hpar]
                    rw [h1s]
                · rw [if_neg hr] at h1s
                  simp only [Except.ok.injEq] at h1s
                  exact WriterState.noConfusion h1s

/-- Claim C1 witness: rotate and replace both supplied on the concrete
fixtures; the run succeeds and its output is that of the replace transform
alone. -/
theorem claim1_witness :
    2 ≤ flagCount argsC1 ∧ lastTransformOnly envA argsC1 = Except.ok docC1 :=
  ⟨by decide, claim1_last_transform_wins envA argsC1 docC1 (by decide) (by decide)⟩
